import Mathlib

/-!
Verification of the business-strategy-analyze pipeline.

This file shallowly embeds the text-processing and control-flow kernels of
the repository (src/utils/validators.py, src/engine/research_engine.py,
src/generator/report_generator.py, src/controller/research_controller.py)
as executable Lean definitions over `List Char` / `String`, and proves or
refutes the specification claims about them.

Conventions:
- Python strings are modelled as `List Char` (one element per code point,
  matching Python `len`/indexing semantics on `str`).
- Python regular expressions are modelled by hand-written scanners that
  reproduce the matching (greedy/lazy, backtracking, non-overlapping
  `findall`) behaviour of the concrete patterns used by the source.
- Python's Unicode character classes (`\s`, `\d`, `\w`) are modelled over
  the character repertoire the program works with: ASCII plus the three
  Japanese blocks the source itself names (hiragana, katakana, CJK
  unified ideographs); full-width punctuation is not a word character.
- `dict`/`set` deduplication (`list(set(xs))`) is modelled by
  `List.dedup`, faithful up to element order (the source does not
  guarantee any order).
- File reads are modelled by `Except String String`: `.error e` stands
  for `FileNotFoundError` with message `e`, `.ok content` for a
  successful read of `content`.
-/

/-! ## Character classes -/

/-- Python `\s` (whitespace), over the repertoire used here:
ASCII whitespace plus the ideographic space U+3000. -/
def isSpaceCh (c : Char) : Bool :=
  c = ' ' || c = '\t' || c = '\n' || c = '\x0b' || c = '\x0c' || c = '\r' ||
  c = '　'

/-- Python `\d` (ASCII decimal digits; the source never feeds full-width
digits to these patterns). -/
def isDigitCh (c : Char) : Bool :=
  '0' ≤ c && c ≤ '9'

/-- `[a-zA-Z]`. -/
def isAsciiLetterCh (c : Char) : Bool :=
  ('a' ≤ c && c ≤ 'z') || ('A' ≤ c && c ≤ 'Z')

/-- The Japanese script ranges of `validators.py`:
`[぀-ゟ゠-ヿ一-龯]`. -/
def isJaCh (c : Char) : Bool :=
  ('぀' ≤ c && c ≤ 'ゟ') ||
  ('゠' ≤ c && c ≤ 'ヿ') ||
  ('一' ≤ c && c ≤ '龯')

/-- Python `\w` (word character) over the repertoire used here: ASCII
alphanumerics, underscore, and the Japanese letters above. -/
def isWordCh (c : Char) : Bool :=
  isAsciiLetterCh c || isDigitCh c || c = '_' || isJaCh c

/-- `[^\s\)]` — the character class of the URL patterns. -/
def isUrlCh (c : Char) : Bool :=
  !(isSpaceCh c || c = ')')

/-! ## List-of-characters utilities -/

/-- `startsWithL pat s` : `pat` is an initial segment of `s`. -/
def startsWithL : List Char → List Char → Bool
  | [], _ => true
  | _ :: _, [] => false
  | p :: ps, c :: cs => p = c && startsWithL ps cs

/-- `occursL pat s` : `pat` occurs as a contiguous substring of `s`
(Python `pat in s`). -/
def occursL (pat : List Char) : List Char → Bool
  | [] => pat.isEmpty
  | c :: cs => startsWithL pat (c :: cs) || occursL pat cs

/-- Python `str.split("\n")`: splits at every newline, keeping empty
pieces; the empty string yields `[[]]`. -/
def splitNl : List Char → List (List Char)
  | [] => [[]]
  | c :: cs =>
    if c = '\n' then [] :: splitNl cs
    else
      match splitNl cs with
      | [] => [[c]]
      | l :: ls => (c :: l) :: ls

/-- Python `str.strip()` (whitespace on both ends). -/
def stripL (s : List Char) : List Char :=
  ((s.dropWhile isSpaceCh).reverse.dropWhile isSpaceCh).reverse

/-- Join a list of lines with `"\n"` (Python `"\n".join`). -/
def joinNl : List (List Char) → List Char
  | [] => []
  | [l] => l
  | l :: ls => l ++ '\n' :: joinNl ls

/-! ## Word counting (`QualityChecker._count_words`) -/

/-- Count maximal runs of characters satisfying `p`
(`re.findall(r"[class]+", s)` length). `inRun` records whether the
previous character was in the class. -/
def countRunsGo (p : Char → Bool) : Bool → List Char → Nat
  | _, [] => 0
  | inRun, c :: cs =>
    if p c then (if inRun then 0 else 1) + countRunsGo p true cs
    else countRunsGo p false cs

/-- `len(re.findall(r"[぀-ゟ゠-ヿ一-龯]+", content))`. -/
def japaneseWordCount (content : List Char) : Nat :=
  countRunsGo isJaCh false content

/-- Does the maximal `[a-zA-Z]` run starting the list end at a non-word
character (or at the end of the text)?  This is the right-hand `\b`. -/
def runEndOk (l : List Char) : Bool :=
  match (l.dropWhile isAsciiLetterCh).head? with
  | none => true
  | some d => !isWordCh d

/-- `len(re.findall(r"\b[a-zA-Z]+\b", content))`: maximal ASCII-letter
runs whose neighbours (when present) are not word characters.
`prevIsWord` records whether the previous character was a word
character. -/
def englishWordGo : Bool → List Char → Nat
  | _, [] => 0
  | prevIsWord, c :: cs =>
    if isAsciiLetterCh c && !prevIsWord then
      (if runEndOk (c :: cs) then 1 else 0) + englishWordGo true cs
    else
      englishWordGo (isWordCh c) cs

/-- `QualityChecker._count_words`. -/
def countWords (content : List Char) : Nat :=
  japaneseWordCount content + englishWordGo false content

example : countWords "分析 market".toList = 2 := by decide
example : countWords "abc3 def".toList = 1 := by decide
example : countWords "現状分析".toList = 1 := by decide
example : countWords "".toList = 0 := by decide

/-! ## URL and citation scanning
(`_count_sources`, `ResearchEngine.extract_sources`) -/

/-- Try to match `https?://[^\s\)]+` at the head of the list.  Returns
the matched URL and the remainder after it.  Mirrors the regex engine:
greedy `s?` with backtracking, then a maximal non-empty run of
`[^\s\)]`. -/
def matchUrlAt : List Char → Option (List Char × List Char)
  | 'h' :: 't' :: 't' :: 'p' :: rest =>
    match rest with
    | 's' :: ':' :: '/' :: '/' :: r2 =>
      let run := r2.takeWhile isUrlCh
      if run.isEmpty then none
      else some (['h','t','t','p','s',':','/','/'] ++ run, r2.drop run.length)
    | ':' :: '/' :: '/' :: r2 =>
      let run := r2.takeWhile isUrlCh
      if run.isEmpty then none
      else some (['h','t','t','p',':','/','/'] ++ run, r2.drop run.length)
    | _ => none
  | _ => none

/-- `re.findall(r"https?://[^\s\)]+", s)`: scan left to right, emit
non-overlapping matches.  `fuel` bounds the recursion (callers pass the
list length, which suffices because every step consumes at least one
character). -/
def findallUrlsGo : Nat → List Char → List (List Char)
  | 0, _ => []
  | _, [] => []
  | fuel + 1, c :: cs =>
    match matchUrlAt (c :: cs) with
    | some (u, rest) => u :: findallUrlsGo fuel rest
    | none => findallUrlsGo fuel cs

def findallUrls (s : List Char) : List (List Char) :=
  findallUrlsGo s.length s

example : findallUrls "x https://a.b) http://c d httpsx://e".toList
    = ["https://a.b".toList, "http://c".toList] := by decide

/-- The lazy `.*?` of the citation pattern followed by the URL group:
starting right after `[n]`, try the URL at each position, consuming one
non-newline character at a time on failure (`.` does not match `\n`).
Returns the URL group and the remainder after the whole match. -/
def lazyFindUrl : List Char → Option (List Char × List Char)
  | [] => none
  | c :: cs =>
    match matchUrlAt (c :: cs) with
    | some (u, rest) => some (u, rest)
    | none => if c = '\n' then none else lazyFindUrl cs

/-- Try to match `\[(\d+)\].*?(https?://[^\s\)]+)` at the head of the
list.  Returns the two capture groups (digits, URL) and the remainder
after the whole match. -/
def matchCitationAt : List Char → Option ((List Char × List Char) × List Char)
  | '[' :: rest =>
    let ds := rest.takeWhile isDigitCh
    if ds.isEmpty then none
    else
      match rest.drop ds.length with
      | ']' :: r2 =>
        match lazyFindUrl r2 with
        | some (u, rest2) => some ((ds, u), rest2)
        | none => none
      | _ => none
  | _ => none

/-- `re.findall(r"\[(\d+)\].*?(https?://[^\s\)]+)", s)`. -/
def findallCitationsGo : Nat → List Char → List (List Char × List Char)
  | 0, _ => []
  | _, [] => []
  | fuel + 1, c :: cs =>
    match matchCitationAt (c :: cs) with
    | some (pair, rest) => pair :: findallCitationsGo fuel rest
    | none => findallCitationsGo fuel cs

def findallCitations (s : List Char) : List (List Char × List Char) :=
  findallCitationsGo s.length s

example : findallCitations "[1] see https://a [2]\nhttp://b [3] x [4] http://c".toList
    = [("1".toList, "https://a".toList), ("3".toList, "http://c".toList)] := by
  decide

/-! ## The references section (`_count_sources`) -/

/-- Drop everything up to and including the first occurrence of `pat`;
`none` when `pat` does not occur (the `re.search` failure case). -/
def afterFirstL (pat : List Char) : List Char → Option (List Char)
  | [] => if pat.isEmpty then some [] else none
  | c :: cs =>
    if startsWithL pat (c :: cs) then some ((c :: cs).drop pat.length)
    else afterFirstL pat cs

/-- The stop condition of the lazy `.*?(?=##|$)` under `re.DOTALL`
(no `re.MULTILINE`): the lookahead succeeds when the remaining text
starts with `##`, is empty, or is a single final newline. -/
def refStop (u : List Char) : Bool :=
  startsWithL "##".toList u || u.isEmpty || u = ['\n']

/-- The lazily matched body after `## 参考文献`: the shortest prefix of
the remaining text whose end satisfies `refStop`. -/
def refBodyTake : List Char → List Char
  | [] => []
  | c :: cs => if refStop (c :: cs) then [] else c :: refBodyTake cs

/-- The non-empty, non-`#`-starting lines of the matched references
section (`group(0)` split on newlines), or 0 when the section is
absent. -/
def referencesLineCount (content : List Char) : Nat :=
  match afterFirstL "## 参考文献".toList content with
  | none => 0
  | some rest =>
    let group0 := "## 参考文献".toList ++ refBodyTake rest
    ((splitNl group0).filter
      (fun line => !(stripL line).isEmpty && !startsWithL ['#'] line)).length

example : referencesLineCount "前\n## 参考文献\n1. a\n\n2. b\n".toList = 2 := by
  decide
example : referencesLineCount "x ## 参考文献\nbody\n## next\nz".toList = 1 := by
  decide
example : referencesLineCount "なし".toList = 0 := by decide

/-- `QualityChecker._count_sources`: distinct URL matches plus distinct
citation tuples plus the references-section line count. -/
def countSources (content : List Char) : Nat :=
  (findallUrls content).dedup.length
    + (findallCitations content).dedup.length
    + referencesLineCount content

/-! ## Required sections (`_check_required_sections`) -/

/-- `QualityChecker.required_sections`. -/
def requiredSections : List String :=
  ["現状分析", "戦略提言", "実行計画", "参考文献"]

/-- `QualityChecker._check_required_sections`: the required sections that
do not occur as substrings, in list order. -/
def missingSections (content : List Char) : List String :=
  requiredSections.filter (fun s => !occursL s.toList content)

/-! ## Structure score (`_check_structure`)

The heading pattern is `^(#{1,6})\s+(.+)$` with `re.MULTILINE`.  Note
that `\s+` may cross newlines, so a heading match can span lines; the
scanner below reproduces the engine's backtracking:
at a line start, `#{1,6}` can only succeed on the full run of leading
hashes (1–6 of them); `\s+` then takes the maximal whitespace run, and
`(.+)$` needs a non-newline character, backtracking `\s+` when the run
reaches the end of the text. -/

/-- Try to match `\s+(.+)$` against the text following the hashes.
Returns the remainder after the whole match (the end of the line that
holds the first character matched by `(.+)`). -/
def matchHeadingTail (after : List Char) : Option (List Char) :=
  let w := after.takeWhile isSpaceCh
  if w.isEmpty then none
  else if w.length < after.length then
    -- greedy success: `(.+)` starts right after the whitespace run and
    -- extends to the end of its line
    some ((after.drop w.length).dropWhile (fun c => c ≠ '\n'))
  else
    -- the whitespace run reaches the end of the text: backtrack `\s+` to
    -- the largest j ≥ 1 such that the character at j is not a newline
    -- (all characters here are whitespace, so that j is just before the
    -- trailing newlines)
    let trailNl := (after.reverse.takeWhile (fun c => c = '\n')).length
    if trailNl + 2 ≤ w.length then
      some ((after.drop (w.length - 1 - trailNl)).dropWhile (fun c => c ≠ '\n'))
    else none

/-- All heading matches of `re.findall(r"^(#{1,6})\s+(.+)$", s, re.M)`,
as the lengths of their hash groups.  `atStart` tracks whether the
current position is a line start (where `^` can match). -/
def headingLevelsGo : Nat → Bool → List Char → List Nat
  | 0, _, _ => []
  | _, _, [] => []
  | fuel + 1, atStart, c :: cs =>
    if atStart then
      let hs := (c :: cs).takeWhile (fun x => x = '#')
      if 1 ≤ hs.length && hs.length ≤ 6 then
        match matchHeadingTail ((c :: cs).drop hs.length) with
        | some rest => hs.length :: headingLevelsGo fuel false rest
        | none => headingLevelsGo fuel (c = '\n') cs
      else headingLevelsGo fuel (c = '\n') cs
    else headingLevelsGo fuel (c = '\n') cs

def headingLevels (content : List Char) : List Nat :=
  headingLevelsGo content.length true content

example : headingLevels "##\nabc\n# x\n####### y\n##   \n".toList = [2, 1, 2] := by
  decide

/-- `QualityChecker._check_structure`. -/
def structureScore (content : List Char) : Int :=
  (if 3 ≤ (headingLevels content).dedup.length then (5 : Int) else -5)
    -- the source tests `"## 目次" in content` twice (both disjuncts are
    -- the same literal), which is one substring test
    + (if occursL "## 目次".toList content then 3 else -3)
    + (if occursL "## エグゼクティブサマリー".toList content
          || occursL "## サマリー".toList content then 2 else -2)

/-! ## Content score (`_check_content_quality`) -/

/-- `re.findall(r"^\s*[-*+]\s+", s, re.M)` count: at a line start the
greedy `\s*` (which may cross newlines) must be followed by a bullet
character and at least one whitespace character. -/
def bulletCountGo : Nat → Bool → List Char → Nat
  | 0, _, _ => 0
  | _, _, [] => 0
  | fuel + 1, atStart, c :: cs =>
    (if atStart then
      let w := (c :: cs).takeWhile isSpaceCh
      match (c :: cs).drop w.length with
      | b :: r2 =>
        if b = '-' || b = '*' || b = '+' then
          let w2 := r2.takeWhile isSpaceCh
          if 1 ≤ w2.length then
            1 + bulletCountGo fuel (w2.reverse.head? = some '\n') (r2.drop w2.length)
          else bulletCountGo fuel (c = '\n') cs
        else bulletCountGo fuel (c = '\n') cs
      | [] => bulletCountGo fuel (c = '\n') cs
    else
      bulletCountGo fuel (c = '\n') cs : Nat)

def bulletCount (content : List Char) : Nat :=
  bulletCountGo content.length true content

example : bulletCount "\n\n  - a\n- b\n-c\n* d\n".toList = 3 := by decide

/-- `re.findall(r"\d+%|\d+円|\d+万円|\d+億円|\d+社|\d+人", s)` count: a
maximal digit run followed by one of the unit suffixes (shorter digit
runs can never match, since the following character would be a
digit). -/
def numberCountGo : Nat → List Char → Nat
  | 0, _ => 0
  | _, [] => 0
  | fuel + 1, c :: cs =>
    let ds := (c :: cs).takeWhile isDigitCh
    if 1 ≤ ds.length then
      match (c :: cs).drop ds.length with
      | '%' :: r => 1 + numberCountGo fuel r
      | '円' :: r => 1 + numberCountGo fuel r
      | '万' :: '円' :: r => 1 + numberCountGo fuel r
      | '億' :: '円' :: r => 1 + numberCountGo fuel r
      | '社' :: r => 1 + numberCountGo fuel r
      | '人' :: r => 1 + numberCountGo fuel r
      | _ => numberCountGo fuel cs
    else numberCountGo fuel cs

def numberCount (content : List Char) : Nat :=
  numberCountGo content.length content

example : numberCount "12% 3万円 45円 6億円 7社 8人 9x".toList = 6 := by decide

/-- The business-term vocabulary of `_check_content_quality`. -/
def businessTerms : List String :=
  ["戦略", "分析", "市場", "競合", "顧客", "収益", "コスト", "ROI", "KPI"]

/-- `sum(1 for term in business_terms if term in content)`. -/
def termCount (content : List Char) : Nat :=
  (businessTerms.filter (fun t => occursL t.toList content)).length

/-- `QualityChecker._check_content_quality`. -/
def contentScore (content : List Char) : Int :=
  (if occursL ['|'] content && occursL "---".toList content then (3 : Int) else 0)
    + (if 10 ≤ bulletCount content then 2
       else if 5 ≤ bulletCount content then 1 else -2)
    + (if 5 ≤ numberCount content then 3
       else if 2 ≤ numberCount content then 1 else -3)
    + (if 5 ≤ termCount content then 2
       else if 3 ≤ termCount content then 1 else -2)

/-! ## `QualityChecker.check_report` -/

/-- `QualityConfig` (the `retry_delay: float` field is not used by any
function embedded here and is omitted). -/
structure QualityConfig where
  min_word_count : Nat := 3000
  min_sources : Nat := 10
  max_retries : Nat := 3
  strict_validation : Bool := true
deriving Repr, DecidableEq

def defaultQualityConfig : QualityConfig := {}

/-- The result dictionary of `check_report`. -/
structure QualityResult where
  passed : Bool
  score : Int
  issues : List String
  warnings : List String
  recommendations : List String
deriving Repr, DecidableEq

/-- The word-count hard check (`word_count < self.config.min_word_count`
is the failing branch; this is the passing condition). -/
def wordOkB (cfg : QualityConfig) (cl : List Char) : Bool :=
  cfg.min_word_count ≤ countWords cl

/-- The source-count hard check. -/
def sourcesOkB (cfg : QualityConfig) (cl : List Char) : Bool :=
  cfg.min_sources ≤ countSources cl

/-- The required-sections hard check (`missing_sections` empty). -/
def sectionsOkB (cl : List Char) : Bool :=
  (missingSections cl).isEmpty

/-- The score before normalisation: starts at 100, subtracts the fixed
penalty of every failed hard check, then adds the structure and content
deltas, exactly in the order of `check_report`. -/
def rawScore (cfg : QualityConfig) (cl : List Char) : Int :=
  100 - (if wordOkB cfg cl then 0 else 20)
    - (if sourcesOkB cfg cl then 0 else 15)
    - (if sectionsOkB cl then 0 else 10 * (missingSections cl).length)
    + structureScore cl + contentScore cl

/-- `QualityChecker.check_report` with `validator = None` (no custom
validator), on the outcome of reading the report file: `.error e`
stands for a read that raised `FileNotFoundError` with message `e`,
`.ok content` for a successful read. -/
def checkReport (cfg : QualityConfig) (file : Except String String) :
    QualityResult :=
  match file with
  | .error e =>
    { passed := false
      score := 0
      issues := ["ファイルが見つかりません: " ++ e]
      warnings := []
      recommendations := [] }
  | .ok content =>
    let cl := content.toList
    { -- `results["passed"]` starts `True` and is set `False` by each of
      -- the three hard checks (and only by them)
      passed := wordOkB cfg cl && sourcesOkB cfg cl && sectionsOkB cl
      -- スコアの正規化: max(0, min(100, score))
      score := max 0 (min 100 (rawScore cfg cl))
      issues :=
        (if wordOkB cfg cl then [] else
          ["文字数が不足しています (" ++ Nat.repr (countWords cl) ++ "/"
            ++ Nat.repr cfg.min_word_count ++ ")"])
        ++ (if sourcesOkB cfg cl then [] else
          ["情報源が不足しています (" ++ Nat.repr (countSources cl) ++ "/"
            ++ Nat.repr cfg.min_sources ++ ")"])
        ++ (if sectionsOkB cl then [] else
          ["必須セクションが不足: "
            ++ String.intercalate ", " (missingSections cl)])
      warnings :=
        (if structureScore cl < 0 then ["レポート構造の改善が必要です"] else [])
        ++ (if contentScore cl < 0 then ["内容の品質向上が必要です"] else [])
      recommendations :=
        (if wordOkB cfg cl then
          ["文字数は十分です (" ++ Nat.repr (countWords cl) ++ "文字)"] else [])
        ++ (if sourcesOkB cfg cl then
          ["情報源は十分です (" ++ Nat.repr (countSources cl) ++ "件)"] else [])
        ++ (if sectionsOkB cl then ["すべての必須セクションが含まれています"]
          else []) }

/-! ## `ResearchEngine.replace_variables` (research_engine.py) -/

/-- Python `str.replace(pat, rep)`: replace every non-overlapping
occurrence of `pat`, scanning left to right.  `fuel` bounds the
recursion (each step consumes at least one character of `s` when `pat`
is non-empty; all patterns used by the source are non-empty literals,
and for an empty `pat` the function returns `s` unchanged). -/
def pyReplaceGo (pat rep : List Char) : Nat → List Char → List Char
  | 0, s => s
  | _, [] => []
  | fuel + 1, c :: cs =>
    if startsWithL pat (c :: cs) && !pat.isEmpty then
      rep ++ pyReplaceGo pat rep fuel ((c :: cs).drop pat.length)
    else c :: pyReplaceGo pat rep fuel cs

def pyReplace (pat rep s : List Char) : List Char :=
  pyReplaceGo pat rep s.length s

example : pyReplace "ab".toList "X".toList "cabab".toList = "cXX".toList := by
  decide

/-- The project configuration fields read by `replace_variables`
(`config_data.get(key, "")`).  Plain `String` fields model a key that
defaults to the empty string when absent; `brand_name` and `division`
are `Option String` because their Python defaults fall back to
`company_name`. -/
structure ProjectConfig where
  company_name : String := ""
  industry : String := ""
  product_service : String := ""
  target_market : String := ""
  region : String := ""
  competitors : List String := []
  target_customer : String := ""
  persona : String := ""
  new_product_idea : String := ""
  target_user : String := ""
  candidate_countries : String := ""
  brand_name : Option String := none
  division : Option String := none
  main_goal : String := ""
  budget : String := ""
  campaign_objective : String := ""
  theme : String := ""
  objective : String := ""
deriving Repr

/-- The `replacements` dictionary of `replace_variables`, in insertion
(iteration) order. -/
def replacementPairs (cfg : ProjectConfig) : List (String × String) :=
  [("[自社名]", cfg.company_name),
   ("[業界]", cfg.industry),
   ("[主要製品/サービス]", cfg.product_service),
   ("[製品/サービス]", cfg.product_service),
   ("[自社製品/サービス]", cfg.product_service),
   ("[製品/サービス名]", cfg.product_service),
   ("[対象市場]", cfg.target_market),
   ("[市場]", cfg.target_market),
   ("[ターゲット市場]", cfg.target_market),
   ("[国・地域]", cfg.region),
   ("[競合企業]", String.intercalate ", " cfg.competitors),
   ("[競合]", String.intercalate ", " cfg.competitors),
   ("[ターゲット顧客]", cfg.target_customer),
   ("[分析対象とする主要な顧客ペルソナ]", cfg.persona),
   ("[新機能や新製品のアイデア]", cfg.new_product_idea),
   ("[想定するターゲットユーザー]", cfg.target_user),
   ("[候補国]", cfg.candidate_countries),
   ("[ブランド名]", cfg.brand_name.getD cfg.company_name),
   ("[自社/事業部]", cfg.division.getD cfg.company_name),
   ("[計測可能な最重要目標]", cfg.main_goal),
   ("[総予算額]", cfg.budget),
   ("[キャンペーン目的]", cfg.campaign_objective),
   ("[テーマ]", cfg.theme),
   ("[目的]", cfg.objective)]

/-- `ResearchEngine.replace_variables`: apply `str.replace` for every
pair in dictionary order. -/
def replaceVariables (cfg : ProjectConfig) (prompt : List Char) : List Char :=
  (replacementPairs cfg).foldl
    (fun p kv => pyReplace kv.1.toList kv.2.toList p) prompt

/-- The recognized bracket tokens (the keys of the dictionary). -/
def recognizedTokens : List String :=
  (replacementPairs {}).map (fun kv => kv.1)

/-- Does any recognized bracket token occur in `s`? -/
def hasToken (s : List Char) : Bool :=
  recognizedTokens.any (fun t => occursL t.toList s)

example :
    replaceVariables { company_name := "Acme", industry := "小売" }
      "「[自社名]」は[業界]の企業".toList
      = "「Acme」は小売の企業".toList := by decide

/-! ## Prompt/report truncation
(`ResearchEngine._truncate_prompt`, `ReportGenerator._truncate_report`)

Both functions share one shape: walk the newline-split lines keeping a
running length; once `current_length + len(line) > maxLen - cut`
(evaluated in ℤ, as in Python), append a fixed marker line and stop.
The result is the lines re-joined with `"\n"`. -/

def truncateLinesGo (maxLen cut : Nat) (marker : List Char) :
    Nat → List (List Char) → List (List Char)
  | _, [] => []
  | currentLength, l :: ls =>
    if ((currentLength : Int) + l.length > (maxLen : Int) - cut) then
      [marker]
    else
      l :: truncateLinesGo maxLen cut marker (currentLength + l.length + 1) ls

/-- `ResearchEngine._truncate_prompt` (`cut = 200`), with the configured
`max_prompt_length` as a parameter (default 8000). -/
def truncatePrompt (maxPromptLength : Nat) (prompt : List Char) : List Char :=
  joinNl (truncateLinesGo maxPromptLength 200
    "\n... (プロンプトが長すぎるため省略)".toList 0 (splitNl prompt))

/-- `ReportGenerator._truncate_report` (`cut = 500`), with the configured
`max_report_length` as a parameter (default 50000). -/
def truncateReport (maxReportLength : Nat) (content : List Char) : List Char :=
  joinNl (truncateLinesGo maxReportLength 500
    "\n... (レポートが長すぎるため省略)".toList 0 (splitNl content))

/-! ## `ResearchEngine.extract_sources` -/

/-- `extract_sources`: all URL matches, then the URL group of every
citation match, deduplicated via `list(set(...))` (modelled by
`List.dedup`; the source guarantees no order). -/
def extractSources (research_result : List Char) : List (List Char) :=
  (findallUrls research_result
    ++ (findallCitations research_result).map (fun c => c.2)).dedup

example : extractSources "see https://a and [1] x https://a done".toList
    = ["https://a".toList] := by decide

/-! ## `ReportGenerator.create_references_section` (report_generator.py) -/

/-- The part of a `StepResult` dictionary that the references section
reads: its `sources` list.  A step dictionary without a `sources` key
behaves exactly like one with an empty list (both are skipped by the
`if "sources" in result and result["sources"]` guard), so the model
carries the list directly. -/
structure StepSources where
  sources : List String
deriving Repr, DecidableEq

/-- The `references` accumulator: `references.extend(result["sources"])`
for every step whose `sources` is present and truthy. -/
def collectReferences (results : List StepSources) : List String :=
  results.foldl
    (fun acc r => if !r.sources.isEmpty then acc ++ r.sources else acc) []

/-- The numbered entries actually rendered: the deduplicated references,
capped at 15 (`unique_references[:15]`). -/
def referencesList (results : List StepSources) : List String :=
  ((collectReferences results).dedup).take 15

/-- `f"{i}. {ref}\n"` for `i = start, start+1, ...`. -/
def numberRefs : Nat → List String → String
  | _, [] => ""
  | i, r :: rs => Nat.repr i ++ ". " ++ r ++ "\n" ++ numberRefs (i + 1) rs

/-- `ReportGenerator.create_references_section`. -/
def createReferencesSection (results : List StepSources) : String :=
  let unique_references := (collectReferences results).dedup
  if unique_references.isEmpty then "参考文献がありません。"
  else numberRefs 1 (unique_references.take 15)

example :
    createReferencesSection [⟨["u1", "u2"]⟩, ⟨[]⟩, ⟨["u2", "u3"]⟩]
      = "1. u1\n2. u2\n3. u3\n" := by decide
example : createReferencesSection [⟨[]⟩] = "参考文献がありません。" := by decide

/-! ## `ResearchController` retry and loop structure
(research_controller.py)

The engine is modelled as a deterministic stub
`engine : Nat → Except E R` mapping the global invocation count to the
outcome of that call: `.error e` stands for `execute_research` raising
exception `e`, `.ok r` for it returning result `r`.  The controller
state threaded through is the invocation count.

`_execute_research_with_retry` returns `Except (Option E) R`:
`.error (some e)` models `raise last_exception` with `e` the exception
of the last failed attempt, and `.error none` models the degenerate
`max_retries = 0` case where Python would execute `raise None`. -/

/-- The `for attempt in range(max_retries)` loop of
`_execute_research_with_retry`; returns the outcome together with the
updated invocation count. -/
def retryGo (engine : Nat → Except E R) :
    Nat → Nat → Option E → Except (Option E) R × Nat
  | 0, calls, lastExc => (Except.error lastExc, calls)
  | n + 1, calls, _lastExc =>
    match engine calls with
    | Except.ok r => (Except.ok r, calls + 1)
    | Except.error e => retryGo engine n (calls + 1) (some e)

/-- `ResearchController._execute_research_with_retry`. -/
def executeResearchWithRetry (engine : Nat → Except E R)
    (maxRetries calls : Nat) : Except (Option E) R × Nat :=
  retryGo engine maxRetries calls none

/-- The `for step in range(1, 4)` loop of `run_phase_research` for one
theme: each of the 3 steps calls the retry helper; a step whose retries
are exhausted is caught by the per-step `except ... continue`, so every
step runs regardless of earlier failures.  Returns the per-step
outcomes in step order together with the updated invocation count. -/
def runThemeSteps (engine : Nat → Except E R) (maxRetries calls : Nat) :
    List (Except (Option E) R) × Nat :=
  let s1 := executeResearchWithRetry engine maxRetries calls
  let s2 := executeResearchWithRetry engine maxRetries s1.2
  let s3 := executeResearchWithRetry engine maxRetries s2.2
  ([s1.1, s2.1, s3.1], s3.2)

/-- The `theme_results` list a theme accumulates: only the successful
step results are appended. -/
def themeResults (engine : Nat → Except E R) (maxRetries calls : Nat) :
    List R :=
  (runThemeSteps engine maxRetries calls).1.filterMap
    (fun o => match o with | Except.ok r => some r | Except.error _ => none)

/-- The theme loop of `run_phase_research`: every theme of the phase is
processed in order (a theme's failed steps never remove later themes
from the loop).  Returns one entry of per-step outcomes per theme. -/
def runPhaseThemes (engine : Nat → Except E R) (maxRetries : Nat) :
    List T → Nat → List (T × List (Except (Option E) R))
  | [], _ => []
  | t :: ts, calls =>
    let r := runThemeSteps engine maxRetries calls
    (t, r.1) :: runPhaseThemes engine maxRetries ts r.2

/-!
# Helper lemmas
-/

theorem structureScore_le (cl : List Char) : structureScore cl ≤ 10 := by
  unfold structureScore
  split_ifs <;> norm_num

theorem neg_le_structureScore (cl : List Char) : -10 ≤ structureScore cl := by
  unfold structureScore
  split_ifs <;> norm_num

theorem neg_le_contentScore (cl : List Char) : -7 ≤ contentScore cl := by
  unfold contentScore
  split_ifs <;> norm_num

/-- If none of the three hard checks fails, no penalty is subtracted. -/
theorem rawScore_of_all_ok {cfg : QualityConfig} {cl : List Char}
    (hw : wordOkB cfg cl = true) (hs : sourcesOkB cfg cl = true)
    (hsec : sectionsOkB cl = true) :
    rawScore cfg cl = 100 + structureScore cl + contentScore cl := by
  simp [rawScore, hw, hs, hsec]

/-- A score of the shape `100 + structure + content` is at least 83
after clamping. -/
theorem clamped_all_ok_ge (cfg : QualityConfig) (cl : List Char)
    (h : rawScore cfg cl = 100 + structureScore cl + contentScore cl) :
    (83 : Int) ≤ max 0 (min 100 (rawScore cfg cl)) := by
  have h1 := neg_le_structureScore cl
  have h2 := neg_le_contentScore cl
  exact le_max_of_le_right (le_min (by norm_num) (by omega))

/-- `str.replace` leaves a string without an occurrence of the pattern
unchanged. -/
theorem pyReplaceGo_of_not_occurs (pat rep : List Char) :
    ∀ (fuel : Nat) (s : List Char), occursL pat s = false →
      pyReplaceGo pat rep fuel s = s := by
  intro fuel
  induction fuel with
  | zero => intro s _; cases s <;> rfl
  | succ n ih =>
    intro s h
    cases s with
    | nil => rfl
    | cons c cs =>
      have h2 : startsWithL pat (c :: cs) = false ∧ occursL pat cs = false := by
        simpa [occursL] using h
      simp [pyReplaceGo, h2.1, ih cs h2.2]

theorem pyReplace_of_not_occurs (pat rep s : List Char)
    (h : occursL pat s = false) : pyReplace pat rep s = s :=
  pyReplaceGo_of_not_occurs pat rep s.length s h

/-- Folding `str.replace` over pairs whose keys do not occur leaves the
string unchanged. -/
theorem foldl_pyReplace_of_not_occurs :
    ∀ (pairs : List (String × String)) (s : List Char),
      (∀ p ∈ pairs, occursL p.1.toList s = false) →
      pairs.foldl (fun p kv => pyReplace kv.1.toList kv.2.toList p) s = s := by
  intro pairs
  induction pairs with
  | nil => intro s _; rfl
  | cons kv rest ih =>
    intro s h
    have hk : occursL kv.1.toList s = false := h kv (List.mem_cons_self _ _)
    simp only [List.foldl_cons, pyReplace_of_not_occurs _ _ _ hk]
    exact ih s (fun p hp => h p (List.mem_cons_of_mem _ hp))

/-- The keys of the replacement dictionary do not depend on the
configuration values. -/
theorem replacementPairs_keys (cfg : ProjectConfig) :
    (replacementPairs cfg).map (fun kv => kv.1) = recognizedTokens := rfl

theorem replaceVariables_of_no_token (cfg : ProjectConfig) (s : List Char)
    (h : hasToken s = false) : replaceVariables cfg s = s := by
  have hall : ∀ t ∈ recognizedTokens, occursL t.toList s = false := by
    intro t ht
    cases hx : occursL t.toList s
    · rfl
    · have h1 : hasToken s = true := List.any_eq_true.mpr ⟨t, ht, hx⟩
      rw [h1] at h
      exact Bool.noConfusion h
  show (replacementPairs cfg).foldl
    (fun p kv => pyReplace kv.1.toList kv.2.toList p) s = s
  refine foldl_pyReplace_of_not_occurs _ s (fun p hp => ?_)
  have hmem : p.1 ∈ recognizedTokens := by
    rw [← replacementPairs_keys cfg]
    exact List.mem_map_of_mem _ hp
  exact hall p.1 hmem

theorem splitNl_ne_nil (s : List Char) : splitNl s ≠ [] := by
  cases s with
  | nil => simp [splitNl]
  | cons c cs =>
    unfold splitNl
    split
    · simp
    · cases h : splitNl cs <;> simp

theorem joinNl_length_cons (l : List Char) (ls : List (List Char)) :
    (joinNl (l :: ls)).length
      = l.length + ((ls.map (fun x => x.length + 1)).sum) := by
  induction ls generalizing l with
  | nil => simp [joinNl]
  | cons l2 ls2 ih =>
    simp only [joinNl, List.length_append, List.length_cons, ih l2,
      List.map_cons, List.sum_cons]
    omega

/-- The total line lengths (with separators) kept by the truncation loop
stay within the budget. -/
theorem truncateLinesGo_sum_le (maxLen cut : Nat) (marker : List Char) :
    ∀ (ls : List (List Char)) (cur : Nat),
      ((truncateLinesGo maxLen cut marker cur ls).map
        (fun x => x.length + 1)).sum
        ≤ (marker.length + 1) + (maxLen + 1 - cut - cur) := by
  intro ls
  induction ls with
  | nil => intro cur; simp [truncateLinesGo]
  | cons l ls ih =>
    intro cur
    unfold truncateLinesGo
    split
    · simp
    · rename_i h
      simp only [List.map_cons, List.sum_cons]
      have hs := ih (cur + l.length + 1)
      omega

/-- The combined bound: a truncated text is never longer than the
configured maximum plus the marker length (for any cut ≥ 1, as used by
both truncation functions). -/
theorem truncate_join_le (maxLen cut : Nat) (hcut : 1 ≤ cut)
    (marker : List Char) (s : List Char) :
    (joinNl (truncateLinesGo maxLen cut marker 0 (splitNl s))).length
      ≤ maxLen + marker.length := by
  obtain ⟨l, ls, hsplit⟩ := List.exists_cons_of_ne_nil (splitNl_ne_nil s)
  rw [hsplit]
  unfold truncateLinesGo
  split
  · simp [joinNl]
  · rename_i h
    rw [joinNl_length_cons]
    have hs := truncateLinesGo_sum_le maxLen cut marker ls (0 + l.length + 1)
    omega

/-! Controller helper lemmas -/

theorem retryGo_all_fail {E R : Type} (engine : Nat → Except E R) :
    ∀ (n calls : Nat) (lastExc : Option E) (f : Nat → E),
      1 ≤ n → (∀ k, k < n → engine (calls + k) = .error (f k)) →
      retryGo engine n calls lastExc
        = (.error (some (f (n - 1))), calls + n) := by
  intro n
  induction n with
  | zero => intro _ _ _ h; omega
  | succ m ih =>
    intro calls lastExc f _ h2
    have h0 : engine calls = .error (f 0) := by
      simpa using h2 0 (Nat.succ_pos m)
    cases m with
    | zero =>
      simp [retryGo, h0]
    | succ m2 =>
      have step := ih (calls + 1) (some (f 0)) (fun k => f (k + 1))
        (Nat.succ_pos m2)
        (fun k hk => by
          have hx := h2 (k + 1) (by omega)
          rw [show calls + 1 + k = calls + (k + 1) by omega]
          exact hx)
      have unfold1 : retryGo engine (m2 + 1 + 1) calls lastExc
          = retryGo engine (m2 + 1) (calls + 1) (some (f 0)) := by
        show (match engine calls with
          | Except.ok r => (Except.ok r, calls + 1)
          | Except.error e => retryGo engine (m2 + 1) (calls + 1) (some e))
            = retryGo engine (m2 + 1) (calls + 1) (some (f 0))
        rw [h0]
      have e2 : calls + 1 + (m2 + 1) = calls + (m2 + 1 + 1) := by omega
      rw [unfold1, step]
      simp only [Nat.add_sub_cancel, e2]

theorem runPhaseThemes_length {E R T : Type} (engine : Nat → Except E R)
    (maxRetries : Nat) :
    ∀ (ts : List T) (calls : Nat),
      (runPhaseThemes engine maxRetries ts calls).length = ts.length := by
  intro ts
  induction ts with
  | nil => intro calls; rfl
  | cons t rest ih =>
    intro calls
    simp [runPhaseThemes, ih]

theorem foldl_extend_sources (rs : List StepSources) :
    ∀ acc : List String,
      rs.foldl (fun a r => if !r.sources.isEmpty then a ++ r.sources else a) acc
        = acc ++ (rs.map (fun r => r.sources)).flatten := by
  induction rs with
  | nil => intro acc; simp
  | cons r rest ih =>
    intro acc
    simp only [List.foldl_cons, List.map_cons, List.flatten_cons]
    rw [ih]
    cases hs : r.sources with
    | nil => simp [hs]
    | cons a as => simp [hs, List.append_assoc]

theorem collectReferences_eq_flatten (results : List StepSources) :
    collectReferences results = (results.map (fun r => r.sources)).flatten := by
  have h := foldl_extend_sources results []
  rw [List.nil_append] at h
  exact h

/-!
# The claims
-/

/-- Claim C1, amended.  As stated by the spec the claim is false (see
the counterexample below): `passed` is not equivalent to
`score ≥ 70`.  What holds, for every configuration (in particular the
default) and every report text: the returned score is clamped to
[0, 100], and `passed = true` implies `score ≥ 70` (indeed ≥ 83); the
converse direction fails. -/
theorem check_report_score_clamped_passed_ge70 (cfg : QualityConfig)
    (content : String) :
    0 ≤ (checkReport cfg (.ok content)).score
    ∧ (checkReport cfg (.ok content)).score ≤ 100
    ∧ ((checkReport cfg (.ok content)).passed = true
        → 70 ≤ (checkReport cfg (.ok content)).score) := by
  refine ⟨le_max_left _ _, max_le (by norm_num) (min_le_left _ _), ?_⟩
  intro h
  have h3 : (wordOkB cfg content.toList = true
      ∧ sourcesOkB cfg content.toList = true)
      ∧ sectionsOkB content.toList = true := by
    simpa [checkReport, Bool.and_eq_true] using h
  have hraw := rawScore_of_all_ok h3.1.1 h3.1.2 h3.2
  have h83 := clamped_all_ok_ge cfg content.toList hraw
  show (70 : Int) ≤ max 0 (min 100 (rawScore cfg content.toList))
  omega

/-- Witness for C1: a concrete configuration and report on which the
check passes, so the theorem yields a score of at least 70. -/
theorem check_report_score_witness :
    70 ≤ (checkReport { min_word_count := 1, min_sources := 0 }
      (.ok "現状分析 戦略提言 実行計画 参考文献")).score :=
  (check_report_score_clamped_passed_ge70
      { min_word_count := 1, min_sources := 0 }
      "現状分析 戦略提言 実行計画 参考文献").2.2 (by decide)

/-- A report that fails only the word-count hard check but earns every
structure and content bonus: ten sources, all four required sections,
three heading levels, a table of contents, an executive summary, a
table, ten bullets, five numeric tokens, and five business terms. -/
def cexReport : String :=
  "# レポート\n## 目次\n## エグゼクティブサマリー\n### 主要\n## 現状分析\n市場 競合 顧客\n10% 20% 30% 40% 50%\n| A | B |\n|---|---|\n- a\n- b\n- c\n- d\n- e\n- f\n- g\n- h\n- i\n- j\n## 戦略提言\n## 実行計画\n## 参考文献\nhttps://example.com/a1\nhttps://example.com/a2\nhttps://example.com/a3\nhttps://example.com/a4\nhttps://example.com/a5\nhttps://example.com/a6\nhttps://example.com/a7\nhttps://example.com/a8\nhttps://example.com/a9\nhttps://example.com/b1\n"

set_option maxRecDepth 100000 in
/-- Counterexample to C1 as stated: under the default configuration
this report has `passed = false` (the word count is below 3000) yet its
score is at least 70 (it is in fact 100), so "passed iff score ≥ 70"
fails in the right-to-left direction. -/
theorem check_report_passed_iff_counterexample :
    (checkReport defaultQualityConfig (.ok cexReport)).passed = false
    ∧ 70 ≤ (checkReport defaultQualityConfig (.ok cexReport)).score := by
  decide

/-- Claim C2, amended.  As stated by the spec the claim is false (see
the counterexample below): on retry exhaustion the exception does
propagate out of the retry helper, but it is caught by the per-step
`except`/`continue` inside the theme loop, so steps with higher numbers
ARE still executed; only the failed step's result is missing.  What
holds: (a) when all `maxRetries ≥ 1` attempts fail, the retry helper
returns the last exception (models `raise last_exception`); (b) the
theme still runs all 3 steps; (c) every theme of the phase is
processed. -/
theorem retry_propagates_and_steps_continue {E R T : Type}
    (engine : Nat → Except E R) (maxRetries calls : Nat) (f : Nat → E)
    (themes : List T)
    (h1 : 1 ≤ maxRetries)
    (h2 : ∀ k, k < maxRetries → engine (calls + k) = .error (f k)) :
    executeResearchWithRetry engine maxRetries calls
      = (.error (some (f (maxRetries - 1))), calls + maxRetries)
    ∧ (runThemeSteps engine maxRetries calls).1.length = 3
    ∧ (runPhaseThemes engine maxRetries themes calls).length
        = themes.length :=
  ⟨retryGo_all_fail engine maxRetries calls none f h1 h2, rfl,
    runPhaseThemes_length engine maxRetries themes calls⟩

/-- An engine stub whose every invocation raises. -/
def constFailEngine : Nat → Except Unit Nat := fun _ => .error ()

/-- Witness for C2 (amended), at a concrete always-failing engine with
the default `max_retries = 3` and a two-theme phase. -/
theorem retry_propagates_witness :
    executeResearchWithRetry constFailEngine 3 0 = (.error (some ()), 3)
    ∧ (runThemeSteps constFailEngine 3 0).1.length = 3
    ∧ (runPhaseThemes constFailEngine 3 [0, 1] 0).length = 2 :=
  retry_propagates_and_steps_continue constFailEngine 3 0 (fun _ => ())
    [0, 1] (by norm_num) (fun k hk => rfl)

/-- An engine stub that raises on its first three invocations and
returns a result from the fourth on. -/
def engineFail3 : Nat → Except Unit Nat :=
  fun n => if n < 3 then .error () else .ok 0

/-- Counterexample to C2 as stated: with default `max_retries = 3` and
`engineFail3`, step 1 exhausts all three attempts and the retry helper
raises — yet steps 2 and 3 are still executed (and succeed).  Steps
with higher numbers are not aborted, contradicting the claim. -/
theorem retry_abort_counterexample :
    (runThemeSteps engineFail3 3 0).1
      = [.error (some ()), .ok 0, .ok 0] := rfl

/-- Claim C3: with the default `max_retries = 3` and an engine stub
that raises on its first two invocations and returns a result on the
third, `_execute_research_with_retry` returns that result (and no
exception), having made exactly 3 engine calls. -/
theorem retry_succeeds_on_third_attempt {E R : Type} (e1 e2 : E) (r : R) :
    executeResearchWithRetry
      (fun n => if n = 0 then .error e1 else if n = 1 then .error e2
        else .ok r) 3 0
      = (.ok r, 3) := rfl

/-- Claim C4, amended.  As stated the claim is false (see the
counterexample below): a replacement can splice the surrounding text
into a new recognized token whose key was already processed (or whose
key occurs earlier in dictionary order), so the output may retain a
recognized bracket token and a second application may change it.  What
holds: whenever the output of `replace_variables` contains no
recognized bracket token, a second application leaves it unchanged. -/
theorem replace_variables_idempotent_on_token_free (cfg : ProjectConfig)
    (t : List Char)
    (h : hasToken (replaceVariables cfg t) = false) :
    replaceVariables cfg (replaceVariables cfg t) = replaceVariables cfg t :=
  replaceVariables_of_no_token cfg (replaceVariables cfg t) h

/-- Witness for C4 (amended): a concrete template whose substitution is
token-free, hence stable under a second application. -/
theorem replace_variables_idempotent_witness :
    replaceVariables { company_name := "Acme" }
        (replaceVariables { company_name := "Acme" } "[自社名]の分析".toList)
      = replaceVariables { company_name := "Acme" } "[自社名]の分析".toList :=
  replace_variables_idempotent_on_token_free { company_name := "Acme" }
    "[自社名]の分析".toList (by decide)

/-- Counterexample to C4 as stated: with the all-defaults (empty)
configuration, the template `[[市場]業界]` substitutes `[市場]` to the
empty string, splicing the text into the recognized token `[業界]` —
whose key was already processed.  The output therefore contains a
recognized bracket token, and a second application changes it. -/
theorem replace_variables_counterexample :
    hasToken (replaceVariables {} "[[市場]業界]".toList) = true
    ∧ replaceVariables {} (replaceVariables {} "[[市場]業界]".toList)
        ≠ replaceVariables {} "[[市場]業界]".toList := by
  decide

/-- Claim C5: `extract_sources` returns a deduplicated list — it has no
duplicate elements, and an element is in the output exactly when it is
a literal URL match or the URL of a `[n]` citation match.  Since the
function is deterministic, two runs on the same text trivially return
the same list, so in particular the same set; no order is asserted. -/
theorem extract_sources_dedup (t : List Char) :
    (extractSources t).Nodup
    ∧ ∀ x, x ∈ extractSources t
        ↔ (x ∈ findallUrls t
            ∨ x ∈ (findallCitations t).map (fun c => c.2)) := by
  constructor
  · exact List.nodup_dedup _
  · intro x
    simp [extractSources, List.mem_dedup, List.mem_append]

/-- Claim C6: for every input string and every configured maximum
length, prompt truncation and report truncation never produce output
longer than the configured maximum plus the fixed marker length. -/
theorem truncate_output_length_bound (maxPromptLength maxReportLength : Nat)
    (p r : List Char) :
    (truncatePrompt maxPromptLength p).length
      ≤ maxPromptLength + "\n... (プロンプトが長すぎるため省略)".toList.length
    ∧ (truncateReport maxReportLength r).length
      ≤ maxReportLength + "\n... (レポートが長すぎるため省略)".toList.length :=
  ⟨truncate_join_le maxPromptLength 200 (by norm_num) _ p,
    truncate_join_le maxReportLength 500 (by norm_num) _ r⟩

/-- Claim C7: when reading the report raises `FileNotFoundError`,
`check_report` does not raise: it returns a failed result with score 0
and a single explanatory issue string naming the missing file. -/
theorem check_report_missing_file (cfg : QualityConfig) (e : String) :
    checkReport cfg (.error e)
      = { passed := false, score := 0,
          issues := ["ファイルが見つかりません: " ++ e],
          warnings := [], recommendations := [] } := rfl

/-- Claim C8: for every configuration and report text the score is
clamped to [0, 100]; on the empty string under the default
configuration the check fails with the very low score 8. -/
theorem check_report_clamped_and_empty (cfg : QualityConfig)
    (content : String) :
    (0 ≤ (checkReport cfg (.ok content)).score
      ∧ (checkReport cfg (.ok content)).score ≤ 100)
    ∧ (checkReport defaultQualityConfig (.ok "")).passed = false
    ∧ (checkReport defaultQualityConfig (.ok "")).score = 8 := by
  refine ⟨⟨le_max_left _ _, max_le (by norm_num) (min_le_left _ _)⟩, ?_, ?_⟩
  · decide
  · decide

/-- Claim C9: the references section is built from the deduplicated
union of all step sources: its entries are pairwise distinct, each
comes from some step's `sources`, at most 15 are listed, the listed
entries are exactly the deduplicated union whenever that union has at
most 15 elements, and the rendered section numbers them sequentially
from 1 (or is the fixed no-references string). -/
theorem references_section_dedup_cap (results : List StepSources) :
    (referencesList results).Nodup
    ∧ (∀ x ∈ referencesList results,
        x ∈ (results.map (fun r => r.sources)).flatten)
    ∧ (referencesList results).length ≤ 15
    ∧ ((collectReferences results).dedup.length ≤ 15
        → referencesList results = (collectReferences results).dedup)
    ∧ createReferencesSection results
        = (if (collectReferences results).dedup.isEmpty
            then "参考文献がありません。"
            else numberRefs 1 (referencesList results)) := by
  refine ⟨(List.nodup_dedup _).sublist (List.take_sublist _ _), ?_, ?_, ?_, rfl⟩
  · intro x hx
    have h1 : x ∈ (collectReferences results).dedup := List.mem_of_mem_take hx
    have h2 : x ∈ collectReferences results := List.mem_dedup.mp h1
    rw [collectReferences_eq_flatten] at h2
    exact h2
  · show ((collectReferences results).dedup.take 15).length ≤ 15
    rw [List.length_take]
    exact min_le_left _ _
  · intro hle
    show (collectReferences results).dedup.take 15
      = (collectReferences results).dedup
    exact List.take_of_length_le hle

/-- Concrete step sources with a duplicate across steps and an empty
middle step. -/
def exStepSources : List StepSources := [⟨["u1", "u2"]⟩, ⟨[]⟩, ⟨["u2", "u3"]⟩]

/-- Witness for C9: on a small input whose deduplicated union has at
most 15 elements, the listed references are exactly that union. -/
theorem references_section_witness :
    referencesList exStepSources = (collectReferences exStepSources).dedup :=
  (references_section_dedup_cap exStepSources).2.2.2.1 (by decide)

/-- Claim C10: `passed` is exactly the conjunction of the three hard
checks (word count, source count, required sections); the structure and
content sub-scores never influence it; and (for every configuration,
hence for the default one) a report passing all three hard checks
scores at least 83. -/
theorem check_report_passed_is_hard_checks (cfg : QualityConfig)
    (content : String) :
    (checkReport cfg (.ok content)).passed
      = (wordOkB cfg content.toList && sourcesOkB cfg content.toList
          && sectionsOkB content.toList)
    ∧ ((checkReport cfg (.ok content)).passed = true
        → 83 ≤ (checkReport cfg (.ok content)).score) := by
  refine ⟨rfl, ?_⟩
  intro h
  have h3 : (wordOkB cfg content.toList = true
      ∧ sourcesOkB cfg content.toList = true)
      ∧ sectionsOkB content.toList = true := by
    simpa [checkReport, Bool.and_eq_true] using h
  exact clamped_all_ok_ge cfg content.toList
    (rawScore_of_all_ok h3.1.1 h3.1.2 h3.2)

/-- Witness for C10: a concrete configuration and report on which all
three hard checks pass; the score is then at least 83 (here exactly
83). -/
theorem check_report_hard_checks_witness :
    83 ≤ (checkReport { min_word_count := 1, min_sources := 0 }
      (.ok "現状分析 戦略提言 実行計画 参考文献")).score :=
  (check_report_passed_is_hard_checks
      { min_word_count := 1, min_sources := 0 }
      "現状分析 戦略提言 実行計画 参考文献").2 (by decide)
